import Mathlib

/-!
Verification of the parameter/function encoding layer of the
craft-toolkit-ts repository: the model classes iParameter,
iFunctionParameter, iInstanceParameter, iParameterName and iFunction,
and the hex/UTF-8 string helpers of the xrpl library they call
(convertStringToHex, convertHexToString).

JavaScript strings are embedded as lists of Unicode scalar values
(Lean `Char`), written `Str` below.  JavaScript objects produced by the
toXrpl methods are embedded as a small JSON-like value type `JsonVal`
whose `obj` constructor keeps the key/value pairs in insertion order, so
that presence, absence and order of fields is part of the model.
-/

namespace CraftToolkit

/-- A JavaScript string, embedded as its list of Unicode scalar values. -/
abbrev Str := List Char

/-- A JavaScript value as produced by the toXrpl methods: a number, a
string, an array, or an object given as an ordered list of fields. -/
inductive JsonVal where
  | num (n : Int)
  | str (s : Str)
  | arr (xs : List JsonVal)
  | obj (fields : List (Str × JsonVal))

/-- Field lookup in an object value; `none` on a missing key or a
non-object, modelling JavaScript property access yielding undefined. -/
def JsonVal.lookup (j : JsonVal) (key : Str) : Option JsonVal :=
  match j with
  | .obj fields => go fields
  | _ => none
where
  go : List (Str × JsonVal) → Option JsonVal
    | [] => none
    | (k, v) :: rest => if k = key then some v else go rest

/-! ## UTF-8 and hex encoding (the xrpl library's convertStringToHex /
convertHexToString, i.e. Buffer.from(s, "utf8").toString("hex")
uppercased, and Buffer.from(h, "hex").toString("utf8")). -/

/-- The UTF-8 byte sequence of one Unicode scalar value. -/
def utf8EncodeChar (c : Char) : List Nat :=
  let n := c.toNat
  if n < 0x80 then [n]
  else if n < 0x800 then [0xC0 + n / 0x40, 0x80 + n % 0x40]
  else if n < 0x10000 then
    [0xE0 + n / 0x1000, 0x80 + (n / 0x40) % 0x40, 0x80 + n % 0x40]
  else
    [0xF0 + n / 0x40000, 0x80 + (n / 0x1000) % 0x40,
      0x80 + (n / 0x40) % 0x40, 0x80 + n % 0x40]

/-- The UTF-8 byte sequence of a string (Buffer.from(s, "utf8")). -/
def utf8Encode : Str → List Nat
  | [] => []
  | c :: cs => utf8EncodeChar c ++ utf8Encode cs

/-- Uppercase hex digit for a value below 16 (0 otherwise unused). -/
def hexDigitChar (n : Nat) : Char :=
  match n with
  | 0 => '0' | 1 => '1' | 2 => '2' | 3 => '3'
  | 4 => '4' | 5 => '5' | 6 => '6' | 7 => '7'
  | 8 => '8' | 9 => '9' | 10 => 'A' | 11 => 'B'
  | 12 => 'C' | 13 => 'D' | 14 => 'E' | _ => 'F'

/-- Two uppercase hex digits of one byte. -/
def byteToHex (b : Nat) : Str :=
  [hexDigitChar (b / 16), hexDigitChar (b % 16)]

/-- Uppercase hex string of a byte sequence. -/
def bytesToHex : List Nat → Str
  | [] => []
  | b :: bs => byteToHex b ++ bytesToHex bs

/-- The xrpl library's convertStringToHex: the uppercase hex encoding of
the UTF-8 bytes of the string. -/
def convertStringToHex (s : Str) : Str :=
  bytesToHex (utf8Encode s)

/-- Numeric value of one hex digit, either case; `none` on a non-digit.
Code points 48-57 are the digits, 65-70 uppercase A-F, 97-102 lowercase
a-f. -/
def hexDigitVal (c : Char) : Option Nat :=
  let n := c.toNat
  if 48 ≤ n ∧ n ≤ 57 then some (n - 48)
  else if 65 ≤ n ∧ n ≤ 70 then some (n - 55)
  else if 97 ≤ n ∧ n ≤ 102 then some (n - 87)
  else none

/-- Parse a hex string into its byte sequence (Buffer.from(h, "hex"));
strict: `none` on odd length or a non-hex character. -/
def hexToBytes : Str → Option (List Nat)
  | [] => some []
  | c1 :: c2 :: rest =>
    match hexDigitVal c1, hexDigitVal c2, hexToBytes rest with
    | some hi, some lo, some bs => some ((hi * 16 + lo) :: bs)
    | _, _, _ => none
  | [_] => none

/-- Value of a UTF-8 continuation byte; `none` if the byte is not of
the continuation form 10xxxxxx. -/
def contVal (b : Nat) : Option Nat :=
  if 0x80 ≤ b ∧ b < 0xC0 then some (b - 0x80) else none

/-- The character of a code point, `none` on a non-scalar value. -/
def mkChar (n : Nat) : Option Char :=
  if h : n.isValidChar then some (Char.ofNatAux n h) else none

/-- Decode one UTF-8 sequence off the front of a byte list, returning
the character and the remaining bytes; `none` on empty, truncated or
malformed input. -/
def utf8DecodeStep : List Nat → Option (Char × List Nat)
  | [] => none
  | b :: bs =>
    if b < 0x80 then (mkChar b).map (fun c => (c, bs))
    else if b < 0xC0 then none
    else if b < 0xE0 then
      match bs with
      | b1 :: bs1 =>
        (contVal b1).bind fun v1 =>
          (mkChar ((b - 0xC0) * 0x40 + v1)).map (fun c => (c, bs1))
      | [] => none
    else if b < 0xF0 then
      match bs with
      | b1 :: b2 :: bs2 =>
        (contVal b1).bind fun v1 => (contVal b2).bind fun v2 =>
          (mkChar ((b - 0xE0) * 0x1000 + v1 * 0x40 + v2)).map
            (fun c => (c, bs2))
      | _ => none
    else if b < 0xF8 then
      match bs with
      | b1 :: b2 :: b3 :: bs3 =>
        (contVal b1).bind fun v1 => (contVal b2).bind fun v2 =>
          (contVal b3).bind fun v3 =>
            (mkChar ((b - 0xF0) * 0x40000 + v1 * 0x1000 + v2 * 0x40 + v3)).map
              (fun c => (c, bs3))
      | _ => none
    else none

/-- Decode loop, structurally recursive on a fuel bound: a successful
step always consumes at least one byte, so fuel equal to the byte count
(as supplied by utf8Decode) never runs out before the input does. -/
def utf8DecodeAux : Nat → List Nat → Option Str
  | _, [] => some []
  | 0, _ :: _ => none
  | fuel + 1, b :: bs =>
    match utf8DecodeStep (b :: bs) with
    | none => none
    | some (c, rest) => (utf8DecodeAux fuel rest).map fun cs => c :: cs

/-- Decode a UTF-8 byte sequence back into a string; strict: `none` on a
truncated or malformed sequence or a non-scalar code point.  (Node's
decoder substitutes U+FFFD on malformed input; the claims only exercise
it on well-formed output of the encoder, where the two agree.) -/
def utf8Decode (l : List Nat) : Option Str :=
  utf8DecodeAux l.length l

/-- The xrpl library's convertHexToString with the default utf8
encoding: parse the hex string to bytes and UTF-8-decode them. -/
def convertHexToString (h : Str) : Option Str :=
  (hexToBytes h).bind utf8Decode

/-! ## The model classes -/

/-- Modelled from the spec: the iParameterFlag class is absent from the
sources (only its constructor calls and its `value` field appear); per
the spec it is "a bitmask wrapper" holding "an integer bitmask", so it
stores the constructor's integer unchanged in `value`. -/
structure iParameterFlag where
  value : Int
deriving DecidableEq

/-- Modelled from the spec: the iParameterType class is absent from the
sources (only its constructor calls on tag strings such as "UINT8" or
"AMOUNT" and its `value` field appear); it stores the wire type tag
string in `value`. -/
structure iParameterType where
  value : Str
deriving DecidableEq

/-- Modelled from the spec: the iParameterValue class is absent from the
sources (only its constructor calls and its `value` field appear); per
the spec it "owns a single logical value" — a plain number, a decimal
string, or a raw string — "constructed once from caller input, immutable
thereafter", so it stores the constructor's value unchanged in `value`. -/
structure iParameterValue where
  value : JsonVal

/-- The iParameterName class: a display string plus a flag recording
whether the stored string is already hex-encoded.  The two-argument
constructor stores both; the one-argument constructor form
`new iParameterName(v)` is `⟨v, false⟩` (the source defaults the absent
flag to false). -/
structure iParameterName where
  value : Str
  isHex : Bool
deriving DecidableEq

/-- Source `toHex`: returns convertStringToHex of the stored value (the
`isHex` field is not consulted here). -/
def iParameterName.toHex (n : iParameterName) : Str :=
  convertStringToHex n.value

/-- Source static `fromHex`: builds a name from convertHexToString of
the argument, with the one-argument constructor (so `isHex = false`).
The decode model returns none where Node would substitute U+FFFD,
hence the Option. -/
def iParameterName.fromHex (hexValue : Str) : Option iParameterName :=
  (convertHexToString hexValue).map fun s => ⟨s, false⟩

/-- Modelled from the spec: the iFunctionName class is absent from the
sources (only its constructor calls and the uses `name.isHex`,
`name.toHex()`, `name.value` in iFunction.toXrpl appear); per the spec a
name is "stored either as raw text or as a pre-encoded hex string", the
same shape and hex encoding as iParameterName. -/
structure iFunctionName where
  value : Str
  isHex : Bool
deriving DecidableEq

/-- Modelled from the spec: `toHex` of the absent iFunctionName class,
mirroring iParameterName.toHex — the hex encoding of the stored text. -/
def iFunctionName.toHex (n : iFunctionName) : Str :=
  convertStringToHex n.value

/-- The iParameter class (call-time argument): flag, type and value. -/
structure iParameter where
  flag : iParameterFlag
  type : iParameterType
  value : iParameterValue

/-- Source iParameter.toXrpl: wraps the fields in the Parameter
envelope, the value inside a ParameterValue member carrying the type tag
and the value.  No validation of any kind is performed. -/
def iParameter.toXrpl (p : iParameter) : JsonVal :=
  .obj [("Parameter".data, .obj
    [("ParameterFlag".data, .num p.flag.value),
     ("ParameterValue".data, .obj
       [("type".data, .str p.type.value),
        ("value".data, p.value.value)])])]

/-- The iFunctionParameter class (function-signature slot): flag and
type, no value. -/
structure iFunctionParameter where
  flag : iParameterFlag
  type : iParameterType
deriving DecidableEq

/-- Source iFunctionParameter.toXrpl: wraps flag and type in the
Parameter envelope, the type inside a ParameterType member; there is no
value member. -/
def iFunctionParameter.toXrpl (p : iFunctionParameter) : JsonVal :=
  .obj [("Parameter".data, .obj
    [("ParameterFlag".data, .num p.flag.value),
     ("ParameterType".data, .obj
       [("type".data, .str p.type.value)])])]

/-- The iInstanceParameter class (per-deployment declaration): flag and
type, no value. -/
structure iInstanceParameter where
  flag : iParameterFlag
  type : iParameterType
deriving DecidableEq

/-- Source iInstanceParameter.toXrpl: identical body to
iFunctionParameter.toXrpl except for the InstanceParameter envelope
key. -/
def iInstanceParameter.toXrpl (p : iInstanceParameter) : JsonVal :=
  .obj [("InstanceParameter".data, .obj
    [("ParameterFlag".data, .num p.flag.value),
     ("ParameterType".data, .obj
       [("type".data, .str p.type.value)])])]

/-- The iFunction class: a name and an optional (possibly null)
parameter list.  `none` covers both an absent and a null `parameters`
field of the source's `iFunctionParameter[] | null | undefined`. -/
structure iFunction where
  name : iFunctionName
  parameters : Option (List iFunctionParameter)

/-- Source iFunction.toXrpl: builds the Function envelope whose
FunctionName is the stored name if it is already hex, the hex encoding
of the raw text otherwise; the Parameters member is added only when the
list is present and non-empty. -/
def iFunction.toXrpl (f : iFunction) : JsonVal :=
  let fname : Str := if !f.name.isHex then f.name.toHex else f.name.value
  match f.parameters with
  | some ps =>
    if ps.length > 0 then
      .obj [("Function".data, .obj
        [("FunctionName".data, .str fname),
         ("Parameters".data, .arr (ps.map iFunctionParameter.toXrpl))])]
    else
      .obj [("Function".data, .obj [("FunctionName".data, .str fname)])]
  | none =>
    .obj [("Function".data, .obj [("FunctionName".data, .str fname)])]

/-! ## State-passing forms of the serializers

The toXrpl methods read the receiver's fields and assign nothing (in
contrast to the fromHex instance methods, which do reassign them), so in
the explicit-state embedding of a method — receiver in, (post-state,
return value) out — the post-state is the receiver rebuilt from the
fields it was read back out of. -/

/-- Explicit-state form of iParameter.toXrpl. -/
def iParameter.toXrplSt (p : iParameter) : iParameter × JsonVal :=
  ({ flag := p.flag, type := p.type, value := p.value }, p.toXrpl)

/-- Explicit-state form of iFunctionParameter.toXrpl. -/
def iFunctionParameter.toXrplSt (p : iFunctionParameter) :
    iFunctionParameter × JsonVal :=
  ({ flag := p.flag, type := p.type }, p.toXrpl)

/-- Explicit-state form of iInstanceParameter.toXrpl. -/
def iInstanceParameter.toXrplSt (p : iInstanceParameter) :
    iInstanceParameter × JsonVal :=
  ({ flag := p.flag, type := p.type }, p.toXrpl)

/-- Explicit-state form of iFunction.toXrpl. -/
def iFunction.toXrplSt (f : iFunction) : iFunction × JsonVal :=
  ({ name := f.name, parameters := f.parameters }, f.toXrpl)

/-- Claim C9, spec-side definition: the inner declaration payload as the
claim words it — ParameterFlag then ParameterType {type}. -/
def declInnerPayload (f : iParameterFlag) (t : iParameterType) : JsonVal :=
  .obj [("ParameterFlag".data, .num f.value),
        ("ParameterType".data, .obj [("type".data, .str t.value)])]

/-! ## Helper lemmas: UTF-8 and hex round trips -/

/-- Validity of a character's code point, as a Nat. -/
theorem Char_toNat_isValidChar (c : Char) : Nat.isValidChar c.toNat := by
  rcases c.valid with h | h
  · exact Or.inl (by exact_mod_cast h)
  · exact Or.inr ⟨by exact_mod_cast h.1, by exact_mod_cast h.2⟩

/-- Rebuilding a character from its own code point gives it back. -/
theorem Char_ofNatAux_toNat (c : Char) (h : Nat.isValidChar c.toNat) :
    Char.ofNatAux c.toNat h = c := by
  have he : Char.ofNatAux c.toNat h = Char.ofNat c.toNat := by
    simp [Char.ofNat, h]
  rw [he, Char.ofNat_toNat]

/-- Code points are below 0x110000. -/
theorem Char_toNat_lt (c : Char) : c.toNat < 0x110000 := by
  rcases Char_toNat_isValidChar c with h | h
  · omega
  · omega

/-- mkChar undoes toNat. -/
theorem mkChar_toNat (c : Char) : mkChar c.toNat = some c := by
  have hv := Char_toNat_isValidChar c
  rw [mkChar, dif_pos hv, Char_ofNatAux_toNat]

/-- Decode step on a symbolic two-byte sequence. -/
theorem utf8DecodeStep_two (q r : Nat) (rest : List Nat)
    (hq2 : q < 0x20) (hr : r < 0x40) :
    utf8DecodeStep ((0xC0 + q) :: (0x80 + r) :: rest) =
      (mkChar (q * 0x40 + r)).map (fun c => (c, rest)) := by
  rw [utf8DecodeStep.eq_def]
  have e1 : ¬ (0xC0 + q < 0x80) := by omega
  have e2 : ¬ (0xC0 + q < 0xC0) := by omega
  have e3 : 0xC0 + q < 0xE0 := by omega
  have e4 : 0x80 ≤ 0x80 + r ∧ 0x80 + r < 0xC0 := by omega
  simp [e1, e2, e3, e4, contVal]

/-- Decode step on a symbolic three-byte sequence. -/
theorem utf8DecodeStep_three (q r s : Nat) (rest : List Nat)
    (hq2 : q < 0x10) (hr : r < 0x40) (hs : s < 0x40) :
    utf8DecodeStep ((0xE0 + q) :: (0x80 + r) :: (0x80 + s) :: rest) =
      (mkChar (q * 0x1000 + r * 0x40 + s)).map (fun c => (c, rest)) := by
  rw [utf8DecodeStep.eq_def]
  have e1 : ¬ (0xE0 + q < 0x80) := by omega
  have e2 : ¬ (0xE0 + q < 0xC0) := by omega
  have e3 : ¬ (0xE0 + q < 0xE0) := by omega
  have e4 : 0xE0 + q < 0xF0 := by omega
  have e5 : 0x80 ≤ 0x80 + r ∧ 0x80 + r < 0xC0 := by omega
  have e6 : 0x80 ≤ 0x80 + s ∧ 0x80 + s < 0xC0 := by omega
  simp [e1, e2, e3, e4, e5, e6, contVal]

/-- Decode step on a symbolic four-byte sequence. -/
theorem utf8DecodeStep_four (q r s t : Nat) (rest : List Nat)
    (hq2 : q < 8) (hr : r < 0x40) (hs : s < 0x40) (ht : t < 0x40) :
    utf8DecodeStep
        ((0xF0 + q) :: (0x80 + r) :: (0x80 + s) :: (0x80 + t) :: rest) =
      (mkChar (q * 0x40000 + r * 0x1000 + s * 0x40 + t)).map
        (fun c => (c, rest)) := by
  rw [utf8DecodeStep.eq_def]
  have e1 : ¬ (0xF0 + q < 0x80) := by omega
  have e2 : ¬ (0xF0 + q < 0xC0) := by omega
  have e3 : ¬ (0xF0 + q < 0xE0) := by omega
  have e4 : ¬ (0xF0 + q < 0xF0) := by omega
  have e5 : 0xF0 + q < 0xF8 := by omega
  have e6 : 0x80 ≤ 0x80 + r ∧ 0x80 + r < 0xC0 := by omega
  have e7 : 0x80 ≤ 0x80 + s ∧ 0x80 + s < 0xC0 := by omega
  have e8 : 0x80 ≤ 0x80 + t ∧ 0x80 + t < 0xC0 := by omega
  simp [e1, e2, e3, e4, e5, e6, e7, e8, contVal]

/-- One decode step undoes the encoding of one character, leaving the
remaining bytes untouched. -/
theorem utf8DecodeStep_encodeChar (c : Char) (rest : List Nat) :
    utf8DecodeStep (utf8EncodeChar c ++ rest) = some (c, rest) := by
  have hlt := Char_toNat_lt c
  by_cases h1 : c.toNat < 0x80
  · have he : utf8EncodeChar c = [c.toNat] := by
      rw [utf8EncodeChar]
      simp [h1]
    rw [he, List.cons_append, List.nil_append, utf8DecodeStep.eq_def]
    simp [h1, mkChar_toNat]
  · by_cases h2 : c.toNat < 0x800
    · have he : utf8EncodeChar c =
          [0xC0 + c.toNat / 0x40, 0x80 + c.toNat % 0x40] := by
        rw [utf8EncodeChar]
        simp [h1, h2]
      rw [he, List.cons_append, List.cons_append, List.nil_append,
        utf8DecodeStep_two _ _ _ (by omega) (by omega),
        show c.toNat / 0x40 * 0x40 + c.toNat % 0x40 = c.toNat from by omega,
        mkChar_toNat]
      rfl
    · by_cases h3 : c.toNat < 0x10000
      · have he : utf8EncodeChar c =
            [0xE0 + c.toNat / 0x1000, 0x80 + c.toNat / 0x40 % 0x40,
              0x80 + c.toNat % 0x40] := by
          rw [utf8EncodeChar]
          simp [h1, h2, h3]
        rw [he, List.cons_append, List.cons_append, List.cons_append,
          List.nil_append,
          utf8DecodeStep_three _ _ _ _ (by omega) (by omega) (by omega),
          show c.toNat / 0x1000 * 0x1000 + c.toNat / 0x40 % 0x40 * 0x40 +
              c.toNat % 0x40 = c.toNat from by omega,
          mkChar_toNat]
        rfl
      · have he : utf8EncodeChar c =
            [0xF0 + c.toNat / 0x40000, 0x80 + c.toNat / 0x1000 % 0x40,
              0x80 + c.toNat / 0x40 % 0x40, 0x80 + c.toNat % 0x40] := by
          rw [utf8EncodeChar]
          simp [h1, h2, h3]
        rw [he, List.cons_append, List.cons_append, List.cons_append,
          List.cons_append, List.nil_append,
          utf8DecodeStep_four _ _ _ _ _ (by omega) (by omega) (by omega)
            (by omega),
          show c.toNat / 0x40000 * 0x40000 + c.toNat / 0x1000 % 0x40 * 0x1000 +
              c.toNat / 0x40 % 0x40 * 0x40 + c.toNat % 0x40 = c.toNat
            from by omega,
          mkChar_toNat]
        rfl

/-- The encoding of a character is non-empty. -/
theorem utf8EncodeChar_ne_nil (c : Char) : utf8EncodeChar c ≠ [] := by
  rw [utf8EncodeChar]
  split_ifs <;> simp

/-- A string is no longer than its UTF-8 encoding. -/
theorem length_le_utf8Encode (s : Str) :
    s.length ≤ (utf8Encode s).length := by
  induction s with
  | nil => simp [utf8Encode]
  | cons c cs ih =>
    rw [utf8Encode, List.length_append, List.length_cons]
    have h1 : 1 ≤ (utf8EncodeChar c).length := by
      cases he : utf8EncodeChar c with
      | nil => exact absurd he (utf8EncodeChar_ne_nil c)
      | cons b bs => simp
    omega

/-- With enough fuel, the decode loop undoes the encoder. -/
theorem utf8DecodeAux_encode (s : Str) :
    ∀ fuel, s.length ≤ fuel → utf8DecodeAux fuel (utf8Encode s) = some s := by
  induction s with
  | nil => intro fuel _; cases fuel <;> rfl
  | cons c cs ih =>
    intro fuel hf
    match fuel, hf with
    | fuel + 1, hf =>
      rw [utf8Encode]
      cases he : utf8EncodeChar c with
      | nil => exact absurd he (utf8EncodeChar_ne_nil c)
      | cons b bs =>
        have hf2 : cs.length ≤ fuel := by
          simp at hf
          omega
        rw [List.cons_append, utf8DecodeAux,
          show (b :: (bs ++ utf8Encode cs)) = utf8EncodeChar c ++ utf8Encode cs
            from by rw [he, List.cons_append],
          utf8DecodeStep_encodeChar]
        simp [ih fuel hf2]

/-- Decoding undoes encoding. -/
theorem utf8Decode_encode (s : Str) : utf8Decode (utf8Encode s) = some s :=
  utf8DecodeAux_encode s _ (length_le_utf8Encode s)

/-- Hex digit encoding and decoding cancel below 16. -/
theorem hexDigitVal_hexDigitChar : ∀ d < 16, hexDigitVal (hexDigitChar d) = some d := by
  decide

/-- Every byte emitted by the character encoder is below 256. -/
theorem utf8EncodeChar_lt (c : Char) : ∀ b ∈ utf8EncodeChar c, b < 256 := by
  have hlt := Char_toNat_lt c
  intro b hb
  rw [utf8EncodeChar] at hb
  split_ifs at hb <;> simp at hb <;> omega

/-- Every byte emitted by the string encoder is below 256. -/
theorem utf8Encode_lt (s : Str) : ∀ b ∈ utf8Encode s, b < 256 := by
  induction s with
  | nil => simp [utf8Encode]
  | cons c cs ih =>
    intro b hb
    rw [utf8Encode, List.mem_append] at hb
    rcases hb with hb | hb
    · exact utf8EncodeChar_lt c b hb
    · exact ih b hb

/-- Parsing the hex encoding of a byte sequence gives it back. -/
theorem hexToBytes_bytesToHex (bs : List Nat) (h : ∀ b ∈ bs, b < 256) :
    hexToBytes (bytesToHex bs) = some bs := by
  induction bs with
  | nil => rfl
  | cons b rest ih =>
    have hb : b < 256 := h b (by simp)
    rw [bytesToHex, byteToHex, List.cons_append, List.cons_append,
      List.nil_append, hexToBytes,
      hexDigitVal_hexDigitChar (b / 16) (by omega),
      hexDigitVal_hexDigitChar (b % 16) (by omega),
      ih (fun x hx => h x (by simp [hx]))]
    simp only [Option.some.injEq, List.cons.injEq, and_true]
    omega

/-- Round trip through the xrpl hex helpers: decoding the hex encoding
of a string yields the string back. -/
theorem convertHexToString_convertStringToHex (s : Str) :
    convertHexToString (convertStringToHex s) = some s := by
  rw [convertHexToString, convertStringToHex,
    hexToBytes_bytesToHex _ (utf8Encode_lt s), Option.some_bind,
    utf8Decode_encode]

/-! ## Shared serializer-shape lemmas -/

/-- Serializing a function with a present, non-empty parameter list
emits the FunctionName and the Parameters array of the serialized
entries in declaration order. -/
theorem iFunction_toXrpl_some (name : iFunctionName)
    (ps : List iFunctionParameter) (h : ps ≠ []) :
    (iFunction.mk name (some ps)).toXrpl =
      .obj [("Function".data, .obj
        [("FunctionName".data,
          .str (if !name.isHex then name.toHex else name.value)),
         ("Parameters".data,
          .arr (ps.map iFunctionParameter.toXrpl))])] := by
  have hlen : ps.length > 0 := by
    cases ps with
    | nil => exact absurd rfl h
    | cons p ps => simp
  rw [iFunction.toXrpl]
  simp [hlen]

/-! ## The claims -/

/-- Claim C1, counterexample: serializing the call parameter
`{flag=0, type=UINT8, value=256}` does not fail with ValueOutOfRange —
it returns the complete wire envelope with the out-of-range value 256
embedded unchanged. -/
theorem c1_counterexample :
    iParameter.toXrpl ⟨⟨0⟩, ⟨"UINT8".data⟩, ⟨.num 256⟩⟩ =
      .obj [("Parameter".data, .obj
        [("ParameterFlag".data, .num 0),
         ("ParameterValue".data, .obj
           [("type".data, .str "UINT8".data),
            ("value".data, .num 256)])])] := rfl

/-- Claim C1, amended: call-parameter serialization performs no range
validation at all — for every flag, type and value it succeeds, and the
emitted nested value field is the stored value unchanged. -/
theorem c1_amended_no_range_validation (f : iParameterFlag)
    (t : iParameterType) (v : iParameterValue) :
    iParameter.toXrpl ⟨f, t, v⟩ =
      .obj [("Parameter".data, .obj
        [("ParameterFlag".data, .num f.value),
         ("ParameterValue".data, .obj
           [("type".data, .str t.value),
            ("value".data, v.value)])])] ∧
    ((iParameter.toXrpl ⟨f, t, v⟩).lookup "Parameter".data).bind
        (fun inner => (inner.lookup "ParameterValue".data).bind
          (fun pv => pv.lookup "value".data)) = some v.value := by
  exact ⟨rfl, rfl⟩

/-- Claim C2, counterexample: the parameter name `{value="41",
isHex=true}` has a well-formed hex stored string, yet toHex does not
return it unchanged — it hex-encodes it a second time, to "3431". -/
theorem c2_counterexample :
    (hexToBytes "41".data).isSome = true ∧
    iParameterName.toHex ⟨"41".data, true⟩ = "3431".data ∧
    "3431".data ≠ "41".data := by
  refine ⟨rfl, rfl, by decide⟩

/-- Claim C2, amended: iParameterName.toHex hex-encodes the stored
string regardless of the isHex flag (an already-hex name is re-encoded);
the isHex-respecting pass-through exists only in the function-name
encoding of iFunction.toXrpl, which emits the stored string unchanged
when isHex is true and its hex encoding when isHex is false. -/
theorem c2_amended_toHex_ignores_isHex (v : Str) :
    iParameterName.toHex ⟨v, true⟩ = convertStringToHex v ∧
    iParameterName.toHex ⟨v, false⟩ = convertStringToHex v ∧
    (iFunction.mk ⟨v, true⟩ none).toXrpl =
      .obj [("Function".data, .obj
        [("FunctionName".data, .str v)])] ∧
    (iFunction.mk ⟨v, false⟩ none).toXrpl =
      .obj [("Function".data, .obj
        [("FunctionName".data, .str (convertStringToHex v))])] := by
  exact ⟨rfl, rfl, rfl, rfl⟩

/-- Claim C3, counterexample: serializing the call parameter
`{flag=tfSendAmount, type=UINT8, value=1}` does not fail with
FlagTypeMismatch — it returns the complete wire envelope with flag
65536 on the non-AMOUNT type. -/
theorem c3_counterexample :
    iParameter.toXrpl ⟨⟨65536⟩, ⟨"UINT8".data⟩, ⟨.num 1⟩⟩ =
      .obj [("Parameter".data, .obj
        [("ParameterFlag".data, .num 65536),
         ("ParameterValue".data, .obj
           [("type".data, .str "UINT8".data),
            ("value".data, .num 1)])])] := rfl

/-- Claim C3, amended: no flag validation exists in assembly — the
call-parameter, function-parameter and instance-parameter serializers
all accept the tfSendAmount flag (65536) paired with an arbitrary type
and emit it unchanged. -/
theorem c3_amended_no_flag_validation (t : iParameterType)
    (v : iParameterValue) :
    iParameter.toXrpl ⟨⟨65536⟩, t, v⟩ =
      .obj [("Parameter".data, .obj
        [("ParameterFlag".data, .num 65536),
         ("ParameterValue".data, .obj
           [("type".data, .str t.value),
            ("value".data, v.value)])])] ∧
    iFunctionParameter.toXrpl ⟨⟨65536⟩, t⟩ =
      .obj [("Parameter".data, .obj
        [("ParameterFlag".data, .num 65536),
         ("ParameterType".data, .obj
           [("type".data, .str t.value)])])] ∧
    iInstanceParameter.toXrpl ⟨⟨65536⟩, t⟩ =
      .obj [("InstanceParameter".data, .obj
        [("ParameterFlag".data, .num 65536),
         ("ParameterType".data, .obj
           [("type".data, .str t.value)])])] := by
  exact ⟨rfl, rfl, rfl⟩

/-- Claim C4, counterexample: building a function whose declared
parameter list has 33 entries does not fail with TooManyParameters —
serialization succeeds and emits all 33 parameter envelopes. -/
theorem c4_counterexample :
    (iFunction.mk ⟨"base".data, false⟩
        (some (List.replicate 33 ⟨⟨0⟩, ⟨"UINT8".data⟩⟩))).toXrpl =
      .obj [("Function".data, .obj
        [("FunctionName".data, .str "62617365".data),
         ("Parameters".data, .arr (List.replicate 33
           (.obj [("Parameter".data, .obj
             [("ParameterFlag".data, .num 0),
              ("ParameterType".data, .obj
                [("type".data, .str "UINT8".data)])])])))])] := by
  rfl

/-- Claim C4, amended: building a function never fails on the parameter
count — for every non-empty parameter list, of any length (32, 33 or
more included), toXrpl succeeds and emits one envelope per declared
parameter. -/
theorem c4_amended_no_count_limit (name : iFunctionName)
    (ps : List iFunctionParameter) (h : ps ≠ []) :
    (iFunction.mk name (some ps)).toXrpl =
      .obj [("Function".data, .obj
        [("FunctionName".data,
          .str (if !name.isHex then name.toHex else name.value)),
         ("Parameters".data,
          .arr (ps.map iFunctionParameter.toXrpl))])] ∧
    (ps.map iFunctionParameter.toXrpl).length = ps.length := by
  exact ⟨iFunction_toXrpl_some name ps h, by simp⟩

/-- Claim C4 witness: the amended statement applied to a concrete
33-entry parameter list. -/
theorem c4_amended_witness :
    (iFunction.mk ⟨"base".data, false⟩
        (some (List.replicate 33 ⟨⟨0⟩, ⟨"UINT8".data⟩⟩))).toXrpl =
      .obj [("Function".data, .obj
        [("FunctionName".data, .str (convertStringToHex "base".data)),
         ("Parameters".data, .arr ((List.replicate 33
           (⟨⟨0⟩, ⟨"UINT8".data⟩⟩ : iFunctionParameter)).map
             iFunctionParameter.toXrpl))])] ∧
    ((List.replicate 33 (⟨⟨0⟩, ⟨"UINT8".data⟩⟩ : iFunctionParameter)).map
      iFunctionParameter.toXrpl).length = 33 :=
  ⟨(c4_amended_no_count_limit _ _ (by simp)).1,
   (c4_amended_no_count_limit ⟨"base".data, false⟩ _ (by simp)).2⟩

/-- Claim C5: serializing a function named "base" (stored as raw text)
with a non-empty parameter list emits FunctionName equal to the hex
encoding of "base" (62617365) and a Parameters array whose i-th entry is
the serialization of the i-th declared parameter, in declaration
order. -/
theorem c5_order_preserved (ps : List iFunctionParameter) (h : ps ≠ []) :
    (iFunction.mk ⟨"base".data, false⟩ (some ps)).toXrpl =
      .obj [("Function".data, .obj
        [("FunctionName".data, .str (convertStringToHex "base".data)),
         ("Parameters".data,
          .arr (ps.map iFunctionParameter.toXrpl))])] ∧
    convertStringToHex "base".data = "62617365".data ∧
    ∀ i (hi : i < ps.length),
      (ps.map iFunctionParameter.toXrpl).get ⟨i, by simpa using hi⟩ =
        iFunctionParameter.toXrpl (ps.get ⟨i, hi⟩) := by
  refine ⟨iFunction_toXrpl_some _ ps h, rfl, ?_⟩
  intro i hi
  simp

/-- Claim C5 witness: the spec scenario — a function "base" with an
ACCOUNT parameter then an AMOUNT parameter yields the hex name and the
two parameter-type envelopes in that order. -/
theorem c5_witness :
    (iFunction.mk ⟨"base".data, false⟩
        (some [⟨⟨0⟩, ⟨"ACCOUNT".data⟩⟩, ⟨⟨0⟩, ⟨"AMOUNT".data⟩⟩])).toXrpl =
      .obj [("Function".data, .obj
        [("FunctionName".data, .str "62617365".data),
         ("Parameters".data, .arr
           [.obj [("Parameter".data, .obj
              [("ParameterFlag".data, .num 0),
               ("ParameterType".data, .obj
                 [("type".data, .str "ACCOUNT".data)])])],
            .obj [("Parameter".data, .obj
              [("ParameterFlag".data, .num 0),
               ("ParameterType".data, .obj
                 [("type".data, .str "AMOUNT".data)])])]])])] ∧
    convertStringToHex "base".data = "62617365".data :=
  ⟨(c5_order_preserved _ (by simp)).1, (c5_order_preserved [⟨⟨0⟩, ⟨"ACCOUNT".data⟩⟩] (by simp)).2.1⟩

/-- Claim C6: a FunctionParameter with flag f and type t serializes to
the envelope Parameter with ParameterFlag f and ParameterType {type t},
and the inner payload contains no value field (neither a ParameterValue
nor a value member). -/
theorem c6_functionParameter_no_value (f : iParameterFlag)
    (t : iParameterType) :
    iFunctionParameter.toXrpl ⟨f, t⟩ =
      .obj [("Parameter".data, .obj
        [("ParameterFlag".data, .num f.value),
         ("ParameterType".data, .obj
           [("type".data, .str t.value)])])] ∧
    ((iFunctionParameter.toXrpl ⟨f, t⟩).lookup "Parameter".data).bind
        (fun inner => inner.lookup "ParameterValue".data) = none ∧
    ((iFunctionParameter.toXrpl ⟨f, t⟩).lookup "Parameter".data).bind
        (fun inner => inner.lookup "value".data) = none := by
  refine ⟨rfl, ?_, ?_⟩ <;> rfl

/-- Claim C7: the four serializers are pure — in the explicit-state
embedding each leaves every field of its receiver unchanged, and a
second call on the unchanged receiver returns the same state and
output. -/
theorem c7_serializers_pure (p : iParameter) (fp : iFunctionParameter)
    (ip : iInstanceParameter) (f : iFunction) :
    (iParameter.toXrplSt p).1 = p ∧
    iParameter.toXrplSt (iParameter.toXrplSt p).1 = iParameter.toXrplSt p ∧
    (iFunctionParameter.toXrplSt fp).1 = fp ∧
    iFunctionParameter.toXrplSt (iFunctionParameter.toXrplSt fp).1 =
      iFunctionParameter.toXrplSt fp ∧
    (iInstanceParameter.toXrplSt ip).1 = ip ∧
    iInstanceParameter.toXrplSt (iInstanceParameter.toXrplSt ip).1 =
      iInstanceParameter.toXrplSt ip ∧
    (iFunction.toXrplSt f).1 = f ∧
    iFunction.toXrplSt (iFunction.toXrplSt f).1 = iFunction.toXrplSt f := by
  exact ⟨rfl, rfl, rfl, rfl, rfl, rfl, rfl, rfl⟩

/-- Claim C8: a function with an absent (null or undefined) or empty
parameter list serializes to a Function envelope holding only the
FunctionName field; no Parameters field is present at all. -/
theorem c8_no_parameters_field (name : iFunctionName) :
    (iFunction.mk name none).toXrpl =
      .obj [("Function".data, .obj
        [("FunctionName".data,
          .str (if !name.isHex then name.toHex else name.value))])] ∧
    (iFunction.mk name (some [])).toXrpl = (iFunction.mk name none).toXrpl ∧
    ((iFunction.mk name none).toXrpl.lookup "Function".data).bind
        (fun inner => inner.lookup "Parameters".data) = none ∧
    ((iFunction.mk name (some [])).toXrpl.lookup "Function".data).bind
        (fun inner => inner.lookup "Parameters".data) = none := by
  exact ⟨rfl, rfl, rfl, rfl⟩

/-- Claim C9: for every flag and type the function-parameter and
instance-parameter serializers emit the same inner payload, differing
only in the envelope key (Parameter versus InstanceParameter). -/
theorem c9_inner_payload_equal (f : iParameterFlag) (t : iParameterType) :
    iFunctionParameter.toXrpl ⟨f, t⟩ =
      .obj [("Parameter".data, declInnerPayload f t)] ∧
    iInstanceParameter.toXrpl ⟨f, t⟩ =
      .obj [("InstanceParameter".data, declInnerPayload f t)] := by
  exact ⟨rfl, rfl⟩

/-- Claim C10: for every raw-text string s, decoding the hex encoding of
s (iParameterName.fromHex after toHex on the name holding s as raw text)
yields the name with stored value s and isHex false. -/
theorem c10_name_roundtrip (s : Str) :
    iParameterName.fromHex (iParameterName.toHex ⟨s, false⟩) =
      some ⟨s, false⟩ := by
  rw [iParameterName.fromHex, iParameterName.toHex,
    convertHexToString_convertStringToHex]
  rfl

end CraftToolkit
